import Mathlib

/-!
# Verification of the USDA FoodData Central MCP server core

A shallow embedding, in Lean 4, of the request-governance and
nutrient-resolution core of the `USDA-mcp` repository:

* the retry policy (`shouldRetry`, `computeBackoffDelay`, `isRetryableStatus`)
  and the typed upstream error (`FoodDataCentralError`) of `usdaClient.ts`;
* the request limiter (`RequestLimiter`), embedded as a small-step transition
  system over the atomic synchronous blocks of its `acquire`/`release`
  methods under the JavaScript event-loop execution model;
* the client facade operation `getFood`, built on the batch call;
* the identifier alias table (`FDC_ID_ALIASES`) and `fetchFoodWithAlias`;
* the nutrient-resolution attempt planner of `fetchFoodForNutrients`
  together with the static `NUTRIENT_DEFINITIONS` table;
* the opaque pagination cursor codec (`encodeCursor` / `decodeCursor`); and
* the post-fetch decision logic of the `get_macros` and `get_macro_micros`
  tool handlers (the Foundation-dataset macro policy).

JavaScript numbers are embedded as `ℚ` (every value `JSON.parse` can produce
is finite), integer identifiers and HTTP statuses as `ℤ`, and JavaScript
strings as `String`.  Functions that may throw return `Except`.
-/

namespace USDA

/-- A JSON value as produced by `JSON.parse`, seen through the checks the
embedded code performs.  `JSON.parse` never produces `NaN` or infinities, so
numbers are represented by `ℚ`.  All array and object values are collapsed
into the single constructor `composite`: every embedded check applied to a
field value is a `typeof` test against `'string'`/`'number'` or a strict
comparison against a string, and those treat all composite values alike. -/
inductive JsonValue where
  | null : JsonValue
  | bool (b : Bool) : JsonValue
  | num (q : ℚ) : JsonValue
  | str (s : String) : JsonValue
  | composite : JsonValue
deriving DecidableEq

/-- A food record (`FoodItem = Record<string, unknown>` in `usdaClient.ts`):
the field map of one upstream JSON object.  A `FoodItem` is itself an
object, so `getRecord(food)` in the tool handlers is the identity on it. -/
abbrev FoodItem := List (String × JsonValue)

/-- JavaScript property read `record[key]`: the first binding of `key`,
`undefined` (here `none`) when absent. -/
def jsGet (fields : FoodItem) (key : String) : Option JsonValue :=
  (fields.find? (fun p => p.1 == key)).map (·.2)

/-- `Array.prototype.join(sep)` on a list of strings. -/
def jsJoin (sep : String) : List String → String
  | [] => ""
  | [x] => x
  | x :: y :: xs => x ++ sep ++ jsJoin sep (y :: xs)

/-- `needle` occurs contiguously inside `haystack`. -/
def strContains (needle haystack : String) : Prop :=
  ∃ pre post, haystack = pre ++ needle ++ post

/-! ## Upstream error type and retry policy (`usdaClient.ts`) -/

/-- `FoodDataCentralError` from `usdaClient.ts`: the typed error the
transport raises.  `status` is the HTTP status when there was one. -/
structure FoodDataCentralError where
  message : String
  status : Option ℤ := none
  responseBody : Option String := none
  retryable : Bool := false
  retryAfterMs : Option ℤ := none
deriving DecidableEq

/-- A thrown JavaScript value as seen by a `catch` block: either a
`FoodDataCentralError` (the `instanceof` test succeeds) or anything else. -/
inductive JsError where
  | fdc (e : FoodDataCentralError) : JsError
  | other : JsError
deriving DecidableEq

/-- `DEFAULT_MAX_RETRIES` (current client revision). -/
def DEFAULT_MAX_RETRIES : ℕ := 2

/-- `DEFAULT_RETRY_DELAY_MS` (current client revision). -/
def DEFAULT_RETRY_DELAY_MS : ℚ := 750

/-- `DEFAULT_MAX_CONCURRENT_REQUESTS` (current client revision). -/
def DEFAULT_MAX_CONCURRENT_REQUESTS : ℕ := 1

/-- `DEFAULT_MIN_REQUEST_INTERVAL_MS` (current client revision). -/
def DEFAULT_MIN_REQUEST_INTERVAL_MS : ℤ := 400

/-- `isRetryableStatus` from `usdaClient.ts`:
`status === 429 || (status >= 500 && status < 600)`. -/
def isRetryableStatus (status : ℤ) : Bool :=
  status == 429 || (500 ≤ status && status < 600)

/-- `FoodDataCentralClient.shouldRetry`: no retry once `attempt` has reached
`maxRetries`; otherwise retry exactly when the thrown value is a
`FoodDataCentralError` whose `retryable` flag is set. -/
def shouldRetry (maxRetries : ℕ) (error : JsError) (attempt : ℕ) : Bool :=
  if attempt ≥ maxRetries then false
  else
    match error with
    | .fdc e => e.retryable
    | .other => false

/-- The error `sendOnce` raises for a non-2xx HTTP response: its
`retryable` flag is computed by `isRetryableStatus`. -/
def httpFailureError (message : String) (status : ℤ) (body : String)
    (retryAfterMs : Option ℤ) : FoodDataCentralError :=
  { message := message
    status := some status
    responseBody := some body
    retryable := isRetryableStatus status
    retryAfterMs := retryAfterMs }

/-- The error `sendOnce` raises when the timeout-triggered `AbortError`
fires: always retryable. -/
def timeoutError : FoodDataCentralError :=
  { message := "FoodData Central request timed out"
    retryable := true }

/-- The classification of a thrown value the retry loop acts on: `true`
exactly for a `FoodDataCentralError` with `retryable = true`. -/
def errorIsRetryable (error : JsError) : Bool :=
  match error with
  | .fdc e => e.retryable
  | .other => false

/-! ## Backoff delay (`FoodDataCentralClient.computeBackoffDelay`)

```
const base = this.retry.retryDelayMs * Math.pow(2, attempt);
const jitter = 0.5 + Math.random(); // between 0.5x and 1.5x
return Math.round(base * jitter);
```

`Math.random()` is modelled by an explicit parameter `rand ∈ [0, 1)`, and
`Math.round` by Mathlib's `round` (both are `⌊x + 1/2⌋`). -/

/-- `computeBackoffDelay`, with the `Math.random()` draw made explicit. -/
def computeBackoffDelay (retryDelayMs : ℚ) (attempt : ℕ) (rand : ℚ) : ℤ :=
  round (retryDelayMs * 2 ^ attempt * (1 / 2 + rand))

/-! ## Pagination cursor codec (server, current revision)

`encodeCursor` serialises `{tool, page, size}` as JSON, base64-encodes the
UTF-8 bytes and makes the result URL-safe; `decodeCursor` reverses the
transform and validates the parsed payload.  The byte-level layer
(`JSON.stringify`/`Buffer` base64 and its exact inverse in
`normalizeBase64Url`/`JSON.parse`) is a bijection between payloads and
cursor strings, so the codec is embedded at the payload level: `encodeCursor`
produces the payload its cursor string deserialises to, and `decodeCursor`
consumes an arbitrary parsed payload (any field may be absent or of the
wrong type). -/

/-- `MAX_PAGE_SIZE` (server, current revision). -/
def MAX_PAGE_SIZE : ℤ := 200

/-- `DEFAULT_SEARCH_PAGE_SIZE` (server, current revision). -/
def DEFAULT_SEARCH_PAGE_SIZE : ℤ := 25

/-- `DEFAULT_LIST_PAGE_SIZE` (server, current revision). -/
def DEFAULT_LIST_PAGE_SIZE : ℤ := 50

/-- `CursorTool`: the two tools that mint pagination cursors. -/
inductive CursorTool where
  | searchFoods : CursorTool
  | listFoods : CursorTool
deriving DecidableEq

/-- The literal tool-name string stored in a cursor payload. -/
def CursorTool.jsName : CursorTool → String
  | .searchFoods => "search-foods"
  | .listFoods => "list-foods"

/-- `DEFAULT_CURSOR_SIZES`: fallback page size per tool. -/
def DEFAULT_CURSOR_SIZES : CursorTool → ℤ
  | .searchFoods => DEFAULT_SEARCH_PAGE_SIZE
  | .listFoods => DEFAULT_LIST_PAGE_SIZE

/-- `CursorDetails`: the decoded page and size. -/
structure CursorDetails where
  page : ℤ
  size : ℤ
deriving DecidableEq

/-- The object `JSON.parse` yields from a cursor string, read through the
`Partial<CursorDetails & {tool?: string}>` cast: each field may be absent
or hold any JSON value. -/
structure CursorPayload where
  tool : Option JsonValue := none
  page : Option JsonValue := none
  size : Option JsonValue := none
deriving DecidableEq

/-- `Math.trunc`: rounding toward zero. -/
def jsTrunc (q : ℚ) : ℤ :=
  if q < 0 then ⌈q⌉ else ⌊q⌋

/-- `encodeCursor(tool, page, size)`, at the payload level: the clamps
applied before serialisation (`page ↦ max(1, trunc page)`,
`size ↦ min(max(trunc size, 1), MAX_PAGE_SIZE)`). -/
def encodeCursor (tool : CursorTool) (page size : ℚ) : CursorPayload :=
  { tool := some (.str tool.jsName)
    page := some (.num ((max 1 (jsTrunc page) : ℤ) : ℚ))
    size := some (.num ((min (max (jsTrunc size) 1) MAX_PAGE_SIZE : ℤ) : ℚ)) }

/-- The uniform error every failing `decodeCursor` path collapses to. -/
def invalidCursorMessage (expectedTool : CursorTool) : String :=
  "Invalid pagination cursor for " ++ expectedTool.jsName ++ "."

/-- `decodeCursor(cursor, expectedTool)`, at the payload level: tool-name
check, page validation, size fallback and clamping.  Every internal failure
is caught and replaced by a single uniform error. -/
def decodeCursor (payload : CursorPayload) (expectedTool : CursorTool) :
    Except String CursorDetails :=
  if payload.tool ≠ some (.str expectedTool.jsName) then
    .error (invalidCursorMessage expectedTool)
  else
    match payload.page with
    | some (.num p) =>
      if p < 1 then .error (invalidCursorMessage expectedTool)
      else
        let fallbackSize : ℚ := (DEFAULT_CURSOR_SIZES expectedTool : ℚ)
        let rawSize : ℚ :=
          match payload.size with
          | some (.num s) => if 1 ≤ s then s else fallbackSize
          | _ => fallbackSize
        .ok
          { page := max 1 (jsTrunc p)
            size := min (max (jsTrunc rawSize) 1) MAX_PAGE_SIZE }
    | _ => .error (invalidCursorMessage expectedTool)

/-! ## Client facade: `getFood` on top of `getFoods` (`usdaClient.ts`)

`getFoods` performs the batch HTTP call; it is abstracted here as a function
from the batch request it is handed to the batch it returns (or the error it
throws).  `getFood` builds the single-element batch request, takes the first
element of the result, and raises a 404 `FoodDataCentralError` when the
batch is empty. -/

/-- The request format of the bulk endpoint. -/
inductive FoodFormat where
  | abridged : FoodFormat
  | full : FoodFormat
deriving DecidableEq

/-- `FoodQueryOptions` from `usdaClient.ts` (both fields optional). -/
structure FoodQueryOptions where
  format : Option FoodFormat := none
  nutrients : Option (List ℤ) := none
deriving DecidableEq

/-- `BulkFoodsRequest` from `usdaClient.ts`. -/
structure BulkFoodsRequest where
  fdcIds : List ℤ
  format : Option FoodFormat := none
  nutrients : Option (List ℤ) := none
deriving DecidableEq

/-- The `FoodDataCentralError` `getFood` throws when the batch comes back
without a record for the requested identifier. -/
def fdcNotFoundError (fdcId : ℤ) : FoodDataCentralError :=
  { message := "FDC ID " ++ toString fdcId ++ " not found"
    status := some 404
    retryable := false }

/-- The batch request `getFood` builds: `{fdcIds: [fdcId], format:
options?.format, nutrients: options?.nutrients}`. -/
def singleFoodRequest (fdcId : ℤ) (options : Option FoodQueryOptions) :
    BulkFoodsRequest :=
  { fdcIds := [fdcId]
    format := options.bind (·.format)
    nutrients := options.bind (·.nutrients) }

/-- `FoodDataCentralClient.getFood`, parameterised by the `getFoods` batch
operation it is built on. -/
def getFood (getFoods : BulkFoodsRequest → Except JsError (List FoodItem))
    (fdcId : ℤ) (options : Option FoodQueryOptions) :
    Except JsError FoodItem :=
  match getFoods (singleFoodRequest fdcId options) with
  | .error e => .error e
  | .ok foods =>
    match foods with
    | [] => .error (.fdc (fdcNotFoundError fdcId))
    | food :: _ => .ok food

/-! ## Alias resolver (server, current revision) -/

/-- `FdcIdAlias`: one entry of the static replacement table. -/
structure FdcIdAlias where
  replacementId : ℤ
  dataset : Option String := none
  rationale : Option String := none
deriving DecidableEq

/-- `AliasResolution`: the provenance attached to a substituted record.
(The source names the second field `alias`; that word is reserved in this
development's host language, so it is spelled `aliasEntry` here.) -/
structure AliasResolution where
  requestedId : ℤ
  aliasEntry : FdcIdAlias
deriving DecidableEq

/-- `FDC_ID_ALIASES`: the static table, keyed by retired identifier.  Its
only entry maps 4053 to 748608. -/
def FDC_ID_ALIASES (fdcId : ℤ) : Option FdcIdAlias :=
  if fdcId = 4053 then
    some
      { replacementId := 748608
        dataset := some "Foundation"
        rationale := some
          "USDA retired the SR Legacy olive oil record; the Foundation entry retains the same nutrient profile." }
  else none

/-- `resolveFdcAlias`: lookup in the static table. -/
def resolveFdcAlias (fdcId : ℤ) : Option FdcIdAlias :=
  FDC_ID_ALIASES fdcId

/-- The result shape of `fetchFoodWithAlias`. -/
structure AliasedFoodResult where
  food : FoodItem
  resolvedFdcId : ℤ
  aliasInfo : Option AliasResolution := none
deriving DecidableEq

/-- `fetchFoodWithAlias`, generalised over the alias table it consults (the
server instantiates it with `FDC_ID_ALIASES`) and over the `client.getFood`
operation.  A failure consults the table only when it is a
`FoodDataCentralError` with `status === 404`; on a hit the same options are
replayed against the replacement identifier and the result carries
`{requestedId, alias}` provenance; on a miss (or any other failure) the
original error propagates. -/
def fetchFoodWithAliasTable
    (getFoodOp : ℤ → Option FoodQueryOptions → Except JsError FoodItem)
    (aliasTable : ℤ → Option FdcIdAlias)
    (fdcId : ℤ) (options : Option FoodQueryOptions) :
    Except JsError AliasedFoodResult :=
  match getFoodOp fdcId options with
  | .ok food => .ok { food := food, resolvedFdcId := fdcId }
  | .error err =>
    match err with
    | .fdc e =>
      if e.status = some 404 then
        match aliasTable fdcId with
        | some al =>
          match getFoodOp al.replacementId options with
          | .ok food =>
            .ok
              { food := food
                resolvedFdcId := al.replacementId
                aliasInfo := some { requestedId := fdcId, aliasEntry := al } }
          | .error e2 => .error e2
        | none => .error err
      else .error err
    | .other => .error err

/-- `fetchFoodWithAlias` as the server defines it: the general form applied
to the static `FDC_ID_ALIASES` table. -/
def fetchFoodWithAlias
    (getFoodOp : ℤ → Option FoodQueryOptions → Except JsError FoodItem)
    (fdcId : ℤ) (options : Option FoodQueryOptions) :
    Except JsError AliasedFoodResult :=
  fetchFoodWithAliasTable getFoodOp FDC_ID_ALIASES fdcId options

/-! ## Nutrient definitions (server, current revision) -/

/-- `NUTRIENT_KEYS`: the enumerated nutrient identifiers. -/
inductive NutrientKey where
  | calories | protein | fat | carbs | saturatedFat | fiber
  | calcium | iron | potassium | sodium | magnesium | zinc
  | vitaminA | vitaminC | vitaminD | vitaminE | vitaminK
  | folate | vitaminB6 | vitaminB12
deriving DecidableEq

/-- The unit attached to a nutrient definition. -/
inductive NutrientUnit where
  | g | kcal | mg | mcg
deriving DecidableEq

/-- `NutrientDefinition`: label, unit, the upstream's numeric identifiers
for the nutrient, and its lower-cased name aliases. -/
structure NutrientDefinition where
  label : String
  unit : NutrientUnit
  ids : List ℤ
  names : List String
deriving DecidableEq

/-- `NUTRIENT_DEFINITIONS`: the static, read-only nutrient table. -/
def NUTRIENT_DEFINITIONS : NutrientKey → NutrientDefinition
  | .calories =>
    { label := "Calories", unit := .kcal, ids := [1008, 208]
      names := ["energy", "energy (atwater general factors)", "energy (kcal)", "calories"] }
  | .protein =>
    { label := "Protein", unit := .g, ids := [1003, 203], names := ["protein"] }
  | .fat =>
    { label := "Total fat", unit := .g, ids := [1004, 204, 1085]
      names := ["total lipid (fat)", "total fat", "total fat (nlea)", "total lipid (nlea)"] }
  | .carbs =>
    { label := "Carbohydrates", unit := .g, ids := [1005, 205, 2039]
      names := ["carbohydrate, by difference", "carbohydrates", "total carbohydrate (nlea)"] }
  | .saturatedFat =>
    { label := "Saturated fat", unit := .g, ids := [1258, 606]
      names := ["fatty acids, total saturated", "saturated fat"] }
  | .fiber =>
    { label := "Dietary fiber", unit := .g, ids := [1079, 291]
      names := ["fiber, total dietary", "dietary fiber"] }
  | .calcium =>
    { label := "Calcium", unit := .mg, ids := [1087, 301], names := ["calcium", "calcium, ca"] }
  | .iron =>
    { label := "Iron", unit := .mg, ids := [1089, 303], names := ["iron", "iron, fe"] }
  | .potassium =>
    { label := "Potassium", unit := .mg, ids := [1092, 306], names := ["potassium", "potassium, k"] }
  | .sodium =>
    { label := "Sodium", unit := .mg, ids := [1093, 307], names := ["sodium", "sodium, na"] }
  | .magnesium =>
    { label := "Magnesium", unit := .mg, ids := [1090, 304], names := ["magnesium", "magnesium, mg"] }
  | .zinc =>
    { label := "Zinc", unit := .mg, ids := [1095, 309], names := ["zinc", "zinc, zn"] }
  | .vitaminA =>
    { label := "Vitamin A (RAE)", unit := .mcg, ids := [1104, 318]
      names := ["vitamin a", "vitamin a, rae", "vitamin a, iu"] }
  | .vitaminC =>
    { label := "Vitamin C", unit := .mg, ids := [1162, 401]
      names := ["vitamin c", "vitamin c, total ascorbic acid"] }
  | .vitaminD =>
    { label := "Vitamin D", unit := .mcg, ids := [1114, 324, 328]
      names := ["vitamin d", "vitamin d (d2 + d3)"] }
  | .vitaminE =>
    { label := "Vitamin E", unit := .mg, ids := [1109, 323]
      names := ["vitamin e", "vitamin e (alpha-tocopherol)"] }
  | .vitaminK =>
    { label := "Vitamin K", unit := .mcg, ids := [1185, 430]
      names := ["vitamin k", "vitamin k (phylloquinone)"] }
  | .folate =>
    { label := "Folate", unit := .mcg, ids := [1186, 417], names := ["folate", "folate, total"] }
  | .vitaminB6 =>
    { label := "Vitamin B6", unit := .mg, ids := [1175, 415], names := ["vitamin b6", "vitamin b-6"] }
  | .vitaminB12 =>
    { label := "Vitamin B12", unit := .mcg, ids := [1178, 418], names := ["vitamin b12", "vitamin b-12"] }

/-- The `NUTRIENT_KEYS` constant as a list, in source order. -/
def allNutrientKeys : List NutrientKey :=
  [.calories, .protein, .fat, .carbs, .saturatedFat, .fiber,
   .calcium, .iron, .potassium, .sodium, .magnesium, .zinc,
   .vitaminA, .vitaminC, .vitaminD, .vitaminE, .vitaminK,
   .folate, .vitaminB6, .vitaminB12]

/-- `macroNutrientKeys` (server): the four core macros. -/
def macroNutrientKeys : List NutrientKey := [.calories, .protein, .fat, .carbs]

/-- `microNutrientKeys` (server): the vitamin/mineral panel. -/
def microNutrientKeys : List NutrientKey :=
  [.calcium, .iron, .potassium, .sodium, .magnesium, .zinc,
   .vitaminA, .vitaminC, .vitaminD, .vitaminE, .vitaminK,
   .folate, .vitaminB6, .vitaminB12]

/-- `macroMicronutrientKeys` (server): macros followed by micros. -/
def macroMicronutrientKeys : List NutrientKey :=
  macroNutrientKeys ++ microNutrientKeys

/-! ## Attempt planner of `fetchFoodForNutrients` (server, current revision)

`fetchFoodForNutrients` first computes the set of numeric nutrient ids of
the requested keys (a JavaScript `Set`, i.e. insertion-ordered
deduplication), then builds the ordered attempt list through `addAttempt`,
which normalises each candidate and drops it when an earlier attempt has
the same `buildNutrientRequestSignature`. -/

/-- `Set.prototype.add`: append when not yet present. -/
def jsSetAdd (l : List ℤ) (x : ℤ) : List ℤ :=
  if x ∈ l then l else l ++ [x]

/-- The insertion-ordered union of the numeric ids of the requested keys
(the `nutrientIds` set). -/
def nutrientIdUnion (keys : List NutrientKey) : List ℤ :=
  keys.foldl (fun acc k => (NUTRIENT_DEFINITIONS k).ids.foldl jsSetAdd acc) []

/-- One pass of `.sort((a, b) => a - b)`: insert into a sorted list. -/
def insertSorted (x : ℤ) : List ℤ → List ℤ
  | [] => [x]
  | y :: ys => if x ≤ y then x :: y :: ys else y :: insertSorted x ys

/-- `.sort((a, b) => a - b)`: numeric ascending sort. -/
def sortIds : List ℤ → List ℤ
  | [] => []
  | x :: xs => insertSorted x (sortIds xs)

/-- The rendering of a format used by `buildNutrientRequestSignature`
(`options.format ?? 'default'`). -/
def formatName (format : Option FoodFormat) : String :=
  match format with
  | some .abridged => "abridged"
  | some .full => "full"
  | none => "default"

/-- `buildNutrientRequestSignature`: `` `${format}:${sortedIds.join(',')}` ``. -/
def buildNutrientRequestSignature (options : FoodQueryOptions) : String :=
  formatName options.format ++ ":" ++
    jsJoin "," ((sortIds (options.nutrients.getD [])).map toString)

/-- The normalisation `addAttempt` applies before deduplication: keep the
format, and keep `nutrients` only when present and non-empty. -/
def normalizeAttempt (options : FoodQueryOptions) : FoodQueryOptions :=
  { format := options.format
    nutrients :=
      match options.nutrients with
      | some l => if l.isEmpty then none else some l
      | none => none }

/-- `addAttempt`: push the normalised attempt unless its signature was
already seen.  The accumulator carries the attempt list and the signature
set. -/
def addAttempt (acc : List FoodQueryOptions × List String)
    (options : FoodQueryOptions) : List FoodQueryOptions × List String :=
  let normalized := normalizeAttempt options
  let signature := buildNutrientRequestSignature normalized
  if signature ∈ acc.2 then acc
  else (acc.1 ++ [normalized], acc.2 ++ [signature])

/-- The ordered, deduplicated attempt list `fetchFoodForNutrients` builds
for a set of requested keys: the filtered abridged attempt (when any
numeric ids exist), the unfiltered full attempt, the unfiltered abridged
attempt, and a final unfiltered abridged attempt should the list still be
empty. -/
def buildAttempts (keys : List NutrientKey) : List FoodQueryOptions :=
  let ids := nutrientIdUnion keys
  let acc0 : List FoodQueryOptions × List String := ([], [])
  let acc1 :=
    if ids.isEmpty then acc0
    else addAttempt acc0 { format := some .abridged, nutrients := some (sortIds ids) }
  let acc2 := addAttempt acc1 { format := some .full }
  let acc3 := addAttempt acc2 { format := some .abridged }
  let acc4 :=
    if acc3.1.isEmpty then addAttempt acc3 { format := some .abridged } else acc3
  acc4.1

/-! ## Post-fetch decision logic of `get_macros` / `get_macro_micros`

The tool handlers call `fetchFoodForNutrients`, then decide between the
Foundation macro-policy failure and a successful structured result.  That
decision stage is embedded below as a function of the fetched food, the
final match map and the alias provenance.  The display-string renderer
`describeFood` (and through it the `${...}` formatting of JavaScript
numbers) is kept abstract as a parameter `describe`: no claim constrains
its output.  The `content[0].text` headline of the reply is presentation
and is not part of the model; `structuredContent` is. -/

/-- `NutrientMatch`: one matched value (and optionally the upstream id it
was matched from). -/
structure NutrientMatch where
  value : ℚ
  nutrientId : Option ℤ := none
deriving DecidableEq

/-- `NutrientValue`: one row of a tool's structured nutrient output. -/
structure NutrientValue where
  key : NutrientKey
  label : String
  unit : NutrientUnit
  valuePer100g : Option ℚ := none
  sourceNutrientId : Option ℤ := none
deriving DecidableEq

/-- `buildNutrientValue(key, match)`. -/
def buildNutrientValue (key : NutrientKey) (m : Option NutrientMatch) :
    NutrientValue :=
  { key := key
    label := (NUTRIENT_DEFINITIONS key).label
    unit := (NUTRIENT_DEFINITIONS key).unit
    valuePer100g := m.map (·.value)
    sourceNutrientId := m.bind (·.nutrientId) }

/-- `String.prototype.toLowerCase`, implemented over the character list
(lower-casing is per-character for the inputs this server compares). -/
def jsToLower (s : String) : String :=
  ⟨s.data.map Char.toLower⟩

/-- `String.prototype.trim`: strip leading and trailing whitespace. -/
def jsTrim (s : String) : String :=
  ⟨((s.data.dropWhile Char.isWhitespace).reverse.dropWhile Char.isWhitespace).reverse⟩

/-- The `dataType` classification the handlers compute:
`typeof recordMeta?.dataType === 'string' ? recordMeta.dataType.trim().toLowerCase() : undefined`
(`getRecord(food)` is the identity on a `FoodItem`, which is an object). -/
def foodDataTypeNormalized (food : FoodItem) : Option String :=
  match jsGet food "dataType" with
  | some (.str s) => some (jsToLower (jsTrim s))
  | _ => none

/-- `formatAliasNote(info, aliasFood)`, with the record renderer abstract:
`` `FDC ${requestedId} not returned by USDA; substituted ${description}${datasetSuffix}.${rationale}`.trim() ``. -/
def formatAliasNote (describe : FoodItem → String) (info : AliasResolution)
    (aliasFood : FoodItem) : String :=
  let datasetSuffix :=
    match info.aliasEntry.dataset with
    | some d => " (" ++ d ++ ")"
    | none => ""
  let rationale :=
    match info.aliasEntry.rationale with
    | some r => " " ++ r
    | none => ""
  jsTrim ("FDC " ++ toString info.requestedId ++ " not returned by USDA; substituted "
    ++ describe aliasFood ++ datasetSuffix ++ "." ++ rationale)

/-- The Foundation macro-policy failure message both handlers throw. -/
def foundationPolicyMessage (description missingText aliasSuffix : String) :
    String :=
  "Foundation entry " ++ description ++ " omits " ++ missingText ++
    ". Choose an FDC record that lists macros or derive the values manually." ++
    aliasSuffix

/-- The `summary` object of a successful nutrient-tool reply (`notes` is
spread in only when non-empty, hence the `Option`). -/
structure NutrientToolSummary where
  fdcId : ℤ
  description : String
  notes : Option (List String) := none
deriving DecidableEq

/-- The `structuredContent` of a successful nutrient-tool reply. -/
structure NutrientToolOutput where
  summary : NutrientToolSummary
  nutrients : List NutrientValue
deriving DecidableEq

/-- The body shared by the `get_macros` and `get_macro_micros` handlers
after `fetchFoodForNutrients` returns: `valueKeys` drives the output rows,
`policyKeys` drives the Foundation macro check (`get_macros` uses the macro
keys for both; `get_macro_micros` renders all keys but checks only the
macros). -/
def nutrientToolPostFetch (describe : FoodItem → String)
    (valueKeys policyKeys : List NutrientKey) (fdcId : ℤ) (food : FoodItem)
    (matchMap : NutrientKey → Option NutrientMatch)
    (aliasInfo : Option AliasResolution) :
    Except String NutrientToolOutput :=
  let dataType := foodDataTypeNormalized food
  let description := describe food
  let nutrientValues := valueKeys.map (fun k => buildNutrientValue k (matchMap k))
  let policyValues := policyKeys.map (fun k => buildNutrientValue k (matchMap k))
  let missingPolicyLabels :=
    (policyValues.filter (fun n => n.valuePer100g.isNone)).map (·.label)
  if dataType = some "foundation" ∧ ¬ missingPolicyLabels.isEmpty then
    let aliasSuffix :=
      match aliasInfo with
      | some info => " " ++ formatAliasNote describe info food
      | none => ""
    .error
      (foundationPolicyMessage description (jsJoin ", " missingPolicyLabels)
        aliasSuffix)
  else
    let aliasNotes :=
      match aliasInfo with
      | some info => [formatAliasNote describe info food]
      | none => []
    let missingAllLabels :=
      (nutrientValues.filter (fun n => n.valuePer100g.isNone)).map (·.label)
    let missingNotes :=
      if missingAllLabels.isEmpty then []
      else ["Missing values for: " ++ jsJoin ", " missingAllLabels ++ "."]
    let notes := aliasNotes ++ missingNotes
    .ok
      { summary :=
          { fdcId := fdcId
            description := description
            notes := if notes.isEmpty then none else some notes }
        nutrients := nutrientValues }

/-- The decision stage of the `get_macros` handler. -/
def getMacrosPostFetch (describe : FoodItem → String) (fdcId : ℤ)
    (food : FoodItem) (matchMap : NutrientKey → Option NutrientMatch)
    (aliasInfo : Option AliasResolution) : Except String NutrientToolOutput :=
  nutrientToolPostFetch describe macroNutrientKeys macroNutrientKeys fdcId
    food matchMap aliasInfo

/-- The decision stage of the `get_macro_micros` handler. -/
def getMacroMicrosPostFetch (describe : FoodItem → String) (fdcId : ℤ)
    (food : FoodItem) (matchMap : NutrientKey → Option NutrientMatch)
    (aliasInfo : Option AliasResolution) : Except String NutrientToolOutput :=
  nutrientToolPostFetch describe macroMicronutrientKeys macroNutrientKeys
    fdcId food matchMap aliasInfo

/-! ## Request limiter (`RequestLimiter`, `usdaClient.ts`)

`RequestLimiter.schedule` wraps an operation in `acquire`/`release`.  The
class runs on the single-threaded JavaScript event loop, so the code between
two `await` suspension points executes atomically.  `acquire` loops: when
`active < maxConcurrent` it reads `Date.now()`, and either waits out the
remaining spacing interval (`await delay(...)`, then re-checks) or
increments `active`, records `lastDispatched = Date.now()` and returns;
when concurrency is exhausted it parks itself on the FIFO `waiters` queue.
`release` decrements `active` (floored at 0 by `Math.max`) and resolves the
head waiter, whose continuation re-enters the loop.

The embedding is a labelled small-step transition system whose steps are
exactly those atomic blocks.  `Date.now()` values are modelled by a global
clock that every step may advance (wall-clock time never decreases in the
model); `delay(ms)` schedules a timer that fires no earlier than its
target.  An event log records parks, wakes and dispatches for the
invariants. -/

/-- The constructor options of `RequestLimiter`. -/
structure LimiterOptions where
  maxConcurrent : ℕ
  minDelayMs : ℤ
deriving DecidableEq

/-- A logical caller of `schedule` (one `acquire`/`release` pair). -/
abbrev CallerId := ℕ

/-- Where one caller stands between two atomic blocks. -/
inductive CallerPhase where
  | notStarted : CallerPhase
  | ready : CallerPhase
  | delaying (target : ℤ) : CallerPhase
  | parked : CallerPhase
  | running : CallerPhase
  | finished : CallerPhase
deriving DecidableEq

/-- The observable events of one limiter history. -/
inductive LimiterEvent where
  | parkedEv (c : CallerId) : LimiterEvent
  | wokenEv (c : CallerId) : LimiterEvent
  | dispatchedEv (c : CallerId) (t : ℤ) : LimiterEvent
deriving DecidableEq

/-- Update one caller's phase. -/
def setPhase (phases : CallerId → CallerPhase) (c : CallerId)
    (p : CallerPhase) : CallerId → CallerPhase :=
  fun x => if x = c then p else phases x

/-- The limiter's shared state (`active`, `lastDispatched`, `waiters`)
together with the clock, the callers' phases and the event log. -/
structure LimiterSystem where
  clock : ℤ
  active : ℕ
  lastDispatched : ℤ
  waiters : List CallerId
  phase : CallerId → CallerPhase
  events : List LimiterEvent

/-- One atomic event-loop block of `RequestLimiter`.  `dispatch` reads
`Date.now()` twice (`t` for the spacing check, `t2 ≥ t` for the recorded
`lastDispatched`); `startDelay` computes the timer target
`now + (minDelayMs - elapsed) = lastDispatched + minDelayMs`; `release`
performs `active = Math.max(0, active - 1)` (truncated subtraction) and
resolves the head waiter, if any. -/
inductive LimiterStep (opts : LimiterOptions) :
    LimiterSystem → LimiterSystem → Prop where
  | start (s : LimiterSystem) (c : CallerId) (t : ℤ) :
      s.phase c = .notStarted → s.clock ≤ t →
      LimiterStep opts s
        { s with clock := t, phase := setPhase s.phase c .ready }
  | dispatch (s : LimiterSystem) (c : CallerId) (t t2 : ℤ) :
      s.phase c = .ready → s.active < opts.maxConcurrent →
      s.clock ≤ t → t ≤ t2 →
      opts.minDelayMs ≤ t - s.lastDispatched →
      LimiterStep opts s
        { clock := t2
          active := s.active + 1
          lastDispatched := t2
          waiters := s.waiters
          phase := setPhase s.phase c .running
          events := s.events ++ [.dispatchedEv c t2] }
  | startDelay (s : LimiterSystem) (c : CallerId) (t : ℤ) :
      s.phase c = .ready → s.active < opts.maxConcurrent →
      s.clock ≤ t → t - s.lastDispatched < opts.minDelayMs →
      LimiterStep opts s
        { s with
            clock := t
            phase := setPhase s.phase c (.delaying (s.lastDispatched + opts.minDelayMs)) }
  | timerFire (s : LimiterSystem) (c : CallerId) (t target : ℤ) :
      s.phase c = .delaying target → s.clock ≤ t → target ≤ t →
      LimiterStep opts s
        { s with clock := t, phase := setPhase s.phase c .ready }
  | park (s : LimiterSystem) (c : CallerId) (t : ℤ) :
      s.phase c = .ready → opts.maxConcurrent ≤ s.active → s.clock ≤ t →
      LimiterStep opts s
        { s with
            clock := t
            waiters := s.waiters ++ [c]
            phase := setPhase s.phase c .parked
            events := s.events ++ [.parkedEv c] }
  | releaseNone (s : LimiterSystem) (c : CallerId) (t : ℤ) :
      s.phase c = .running → s.clock ≤ t → s.waiters = [] →
      LimiterStep opts s
        { s with
            clock := t
            active := s.active - 1
            phase := setPhase s.phase c .finished }
  | releaseWake (s : LimiterSystem) (c : CallerId) (t : ℤ) (w : CallerId)
      (rest : List CallerId) :
      s.phase c = .running → s.clock ≤ t → s.waiters = w :: rest →
      LimiterStep opts s
        { s with
            clock := t
            active := s.active - 1
            waiters := rest
            phase := setPhase (setPhase s.phase c .finished) w .ready
            events := s.events ++ [.wokenEv w] }

/-- A freshly constructed limiter: no active calls, `lastDispatched = 0`,
an empty queue, no history, and a nonnegative wall clock (`Date.now()` is
an epoch-millisecond count). -/
def LimiterInit (s : LimiterSystem) : Prop :=
  s.active = 0 ∧ s.lastDispatched = 0 ∧ 0 ≤ s.clock ∧ s.waiters = [] ∧
    s.events = [] ∧ ∀ c, s.phase c = .notStarted

/-- The states an initial limiter can reach. -/
def LimiterReachable (opts : LimiterOptions) (s : LimiterSystem) : Prop :=
  ∃ s0, LimiterInit s0 ∧ Relation.ReflTransGen (LimiterStep opts) s0 s

/-- The dispatch timestamps recorded in a history, in order. -/
def dispatchTimes (events : List LimiterEvent) : List ℤ :=
  events.filterMap fun e =>
    match e with
    | .dispatchedEv _ t => some t
    | _ => none

/-- The callers parked, in order (one entry per park). -/
def parkSeq (events : List LimiterEvent) : List CallerId :=
  events.filterMap fun e =>
    match e with
    | .parkedEv c => some c
    | _ => none

/-- The callers woken by `release`, in order (one entry per wake). -/
def wakeSeq (events : List LimiterEvent) : List CallerId :=
  events.filterMap fun e =>
    match e with
    | .wokenEv c => some c
    | _ => none

/-- The position of caller `c`'s first park in a history. -/
def firstParkIdx (events : List LimiterEvent) (c : CallerId) : Option ℕ :=
  events.findIdx? fun e =>
    match e with
    | .parkedEv c2 => c2 == c
    | _ => false

/-- The position of caller `c`'s first dispatch in a history. -/
def firstDispatchIdx (events : List LimiterEvent) (c : CallerId) : Option ℕ :=
  events.findIdx? fun e =>
    match e with
    | .dispatchedEv c2 _ => c2 == c
    | _ => false

/-- FIFO dispatch order over a history: whenever caller `a` first parked
before caller `b` first parked and `b` has been dispatched, `a` was
dispatched earlier. -/
def FifoDispatchLog (events : List LimiterEvent) : Prop :=
  ∀ a b ia ib jb, firstParkIdx events a = some ia →
    firstParkIdx events b = some ib → ia < ib →
    firstDispatchIdx events b = some jb →
    ∃ ja, firstDispatchIdx events a = some ja ∧ ja < jb

/-- The strengthened inductive invariant behind the limiter safety claims. -/
def LimiterInv (opts : LimiterOptions) (s : LimiterSystem) : Prop :=
  s.active ≤ opts.maxConcurrent ∧
  s.lastDispatched ≤ s.clock ∧
  (∀ t ∈ dispatchTimes s.events, t ≤ s.lastDispatched) ∧
  (dispatchTimes s.events).Pairwise (fun a b => a + opts.minDelayMs ≤ b) ∧
  parkSeq s.events = wakeSeq s.events ++ s.waiters

/-! ### A concrete interleaving where queue order and dispatch order differ

Four callers under the default configuration `maxConcurrent = 1` (spacing
0 for brevity).  Caller 0 dispatches and runs; callers 1 and 2 park, in
that order.  Caller 0's release wakes caller 1, but before caller 1's
continuation runs, the fresh caller 3 arrives and takes the free slot, so
caller 1 re-parks behind caller 2.  Caller 3's release then wakes caller 2,
which dispatches before caller 1 ever does. -/

/-- Options of the overtaking interleaving: one slot, no spacing. -/
def cexOpts : LimiterOptions := { maxConcurrent := 1, minDelayMs := 0 }

/-- Initial state of the overtaking interleaving. -/
def cexS0 : LimiterSystem :=
  { clock := 0, active := 0, lastDispatched := 0, waiters := []
    phase := fun _ => .notStarted, events := [] }

/-- Caller 0 enters `schedule`. -/
def cexS1 : LimiterSystem :=
  { cexS0 with clock := 0, phase := setPhase cexS0.phase 0 .ready }

/-- Caller 0 dispatches. -/
def cexS2 : LimiterSystem :=
  { clock := 0
    active := cexS1.active + 1
    lastDispatched := 0
    waiters := cexS1.waiters
    phase := setPhase cexS1.phase 0 .running
    events := cexS1.events ++ [.dispatchedEv 0 0] }

/-- Caller 1 enters `schedule`. -/
def cexS3 : LimiterSystem :=
  { cexS2 with clock := 0, phase := setPhase cexS2.phase 1 .ready }

/-- Caller 1 parks (the slot is taken). -/
def cexS4 : LimiterSystem :=
  { cexS3 with
      clock := 0
      waiters := cexS3.waiters ++ [1]
      phase := setPhase cexS3.phase 1 .parked
      events := cexS3.events ++ [.parkedEv 1] }

/-- Caller 2 enters `schedule`. -/
def cexS5 : LimiterSystem :=
  { cexS4 with clock := 0, phase := setPhase cexS4.phase 2 .ready }

/-- Caller 2 parks behind caller 1. -/
def cexS6 : LimiterSystem :=
  { cexS5 with
      clock := 0
      waiters := cexS5.waiters ++ [2]
      phase := setPhase cexS5.phase 2 .parked
      events := cexS5.events ++ [.parkedEv 2] }

/-- Caller 0 releases and wakes caller 1 (head of the queue). -/
def cexS7 : LimiterSystem :=
  { cexS6 with
      clock := 0
      active := cexS6.active - 1
      waiters := [2]
      phase := setPhase (setPhase cexS6.phase 0 .finished) 1 .ready
      events := cexS6.events ++ [.wokenEv 1] }

/-- Caller 3 enters `schedule` before caller 1's continuation runs. -/
def cexS8 : LimiterSystem :=
  { cexS7 with clock := 0, phase := setPhase cexS7.phase 3 .ready }

/-- Caller 3 dispatches, stealing the free slot. -/
def cexS9 : LimiterSystem :=
  { clock := 0
    active := cexS8.active + 1
    lastDispatched := 0
    waiters := cexS8.waiters
    phase := setPhase cexS8.phase 3 .running
    events := cexS8.events ++ [.dispatchedEv 3 0] }

/-- Caller 1's continuation finds the slot taken and re-parks — now at the
tail, behind caller 2. -/
def cexS10 : LimiterSystem :=
  { cexS9 with
      clock := 0
      waiters := cexS9.waiters ++ [1]
      phase := setPhase cexS9.phase 1 .parked
      events := cexS9.events ++ [.parkedEv 1] }

/-- Caller 3 releases and wakes caller 2. -/
def cexS11 : LimiterSystem :=
  { cexS10 with
      clock := 0
      active := cexS10.active - 1
      waiters := [1]
      phase := setPhase (setPhase cexS10.phase 3 .finished) 2 .ready
      events := cexS10.events ++ [.wokenEv 2] }

/-- Caller 2 dispatches — before caller 1, which parked first. -/
def cexS12 : LimiterSystem :=
  { clock := 0
    active := cexS11.active + 1
    lastDispatched := 0
    waiters := cexS11.waiters
    phase := setPhase cexS11.phase 2 .running
    events := cexS11.events ++ [.dispatchedEv 2 0] }

/-- Observation: whether an `Except` result is a thrown error. -/
def exceptIsError {ε α : Type} (e : Except ε α) : Bool :=
  match e with
  | .error _ => true
  | .ok _ => false

/-- Observation: the message of a thrown error (empty for a success). -/
def exceptErrorText {α : Type} (e : Except String α) : String :=
  match e with
  | .error msg => msg
  | .ok _ => ""

/-! ## Helper lemmas -/

theorem jsTrunc_intCast (n : ℤ) : jsTrunc (n : ℚ) = n := by
  unfold jsTrunc
  split
  · exact Int.ceil_intCast n
  · exact Int.floor_intCast n

theorem string_length_pos (s : String) (h : s ≠ "") : 0 < s.length := by
  have hd : s.data ≠ [] := by
    intro hnil
    apply h
    cases s with
    | mk data => simp only at hnil; subst hnil; rfl
  exact List.length_pos.mpr hd

theorem toDigitsCore_len_gt (b : ℕ) :
    ∀ (f n : ℕ) (acc : List Char), 0 < f →
      acc.length < (Nat.toDigitsCore b f n acc).length := by
  intro f
  induction f with
  | zero => intro n acc h; omega
  | succ f ih =>
    intro n acc _
    rw [Nat.toDigitsCore]
    by_cases hdiv : n / b = 0
    · simp [hdiv]
    · simp only [hdiv, if_false]
      rcases Nat.eq_zero_or_pos f with hf | hf
      · subst hf
        rw [Nat.toDigitsCore]
        simp
      · have := ih (n / b) (Nat.digitChar (n % b) :: acc) hf
        simp at this
        omega

theorem nat_repr_ne_empty (n : ℕ) : Nat.repr n ≠ "" := by
  intro h
  have h2 : ([] : List Char).length < (Nat.toDigitsCore 10 (n + 1) n []).length :=
    toDigitsCore_len_gt 10 (n + 1) n [] (Nat.succ_pos n)
  have h3 : (Nat.repr n).length = (Nat.toDigitsCore 10 (n + 1) n []).length := rfl
  have h4 : 0 < (Nat.repr n).length := by
    rw [h3]
    simpa using h2
  rw [h] at h4
  exact absurd h4 (by decide)

theorem int_toString_ne_empty (i : ℤ) : toString i ≠ "" := by
  cases i with
  | ofNat m => exact nat_repr_ne_empty m
  | negSucc m =>
    intro h
    have h2 : ("-" ++ Nat.repr (m + 1) : String) = "" := h
    have hlen := congrArg String.length h2
    rw [String.length_append] at hlen
    have ha : ("-" : String).length = 1 := rfl
    have hb : ("" : String).length = 0 := rfl
    rw [ha, hb] at hlen
    omega

theorem jsJoin_cons_ne_empty (sep x : String) (xs : List String) (hx : x ≠ "") :
    jsJoin sep (x :: xs) ≠ "" := by
  cases xs with
  | nil => exact hx
  | cons y ys =>
    intro h
    have hlen := congrArg String.length h
    rw [jsJoin] at hlen
    rw [String.length_append, String.length_append] at hlen
    have hx' : 0 < x.length := string_length_pos x hx
    have hb : ("" : String).length = 0 := rfl
    rw [hb] at hlen
    omega

theorem insertSorted_ne_nil (x : ℤ) (l : List ℤ) : insertSorted x l ≠ [] := by
  cases l with
  | nil => simp [insertSorted]
  | cons y ys =>
    rw [insertSorted]
    split
    · simp
    · simp

theorem sortIds_ne_nil (l : List ℤ) (h : l ≠ []) : sortIds l ≠ [] := by
  cases l with
  | nil => exact absurd rfl h
  | cons x xs =>
    rw [sortIds]
    exact insertSorted_ne_nil x (sortIds xs)

/-! ## Claim theorems: retry policy and backoff -/

/-- Claim C4: the retry loop retries exactly when the attempt index is
below `maxRetries` and the thrown value is a `FoodDataCentralError`
classified retryable; HTTP statuses are retryable iff 429 or 5xx; timeouts
are always retryable; non-retryable classifications never retry, at any
attempt index. -/
theorem shouldRetry_characterization :
    (∀ (maxRetries attempt : ℕ) (e : JsError),
      shouldRetry maxRetries e attempt = true ↔
        (attempt < maxRetries ∧ errorIsRetryable e = true)) ∧
    (∀ status : ℤ,
      isRetryableStatus status = true ↔
        (status = 429 ∨ (500 ≤ status ∧ status < 600))) ∧
    (∀ e, errorIsRetryable (JsError.fdc e) = e.retryable) ∧
    errorIsRetryable JsError.other = false ∧
    timeoutError.retryable = true ∧
    (∀ msg status body ra,
      (httpFailureError msg status body ra).retryable = isRetryableStatus status) := by
  refine ⟨?_, ?_, fun e => rfl, rfl, rfl, fun _ _ _ _ => rfl⟩
  · intro m a e
    unfold shouldRetry errorIsRetryable
    by_cases h : a ≥ m
    · rw [if_pos h]
      cases e with
      | fdc err =>
        constructor
        · intro hfalse
          exact absurd hfalse (by simp)
        · intro hr
          omega
      | other =>
        constructor
        · intro hfalse
          exact absurd hfalse (by simp)
        · intro hr
          omega
    · rw [if_neg h]
      cases e with
      | fdc err =>
        constructor
        · intro hr
          exact ⟨Nat.lt_of_not_le h, hr⟩
        · intro hr
          exact hr.2
      | other =>
        constructor
        · intro hfalse
          exact absurd hfalse (by simp)
        · intro hr
          exact hr.2
  · intro status
    unfold isRetryableStatus
    simp only [Bool.or_eq_true, Bool.and_eq_true, beq_iff_eq, decide_eq_true_eq]

/-- Witness for C4: a 429 failure on the first attempt is retried. -/
theorem shouldRetry_characterization_witness :
    shouldRetry DEFAULT_MAX_RETRIES
      (JsError.fdc (httpFailureError "rate limited" 429 "" none)) 0 = true :=
  (shouldRetry_characterization.1 DEFAULT_MAX_RETRIES 0
    (JsError.fdc (httpFailureError "rate limited" 429 "" none))).mpr
    ⟨by decide, by decide⟩

/-- Counterexample for C5 as stated: with the (fractional) configured base
delay 0.4 ms, attempt 0 and `Math.random() = 0.375`, the computed delay is
`round(0.35) = 0`, which is below the claimed lower bound
`0.5 * 0.4 * 2^0 = 0.2`. -/
theorem backoff_range_counterexample :
    computeBackoffDelay (2 / 5) 0 (3 / 8) = 0 ∧
    ¬ ((1 / 2 : ℚ) * (2 / 5) * 2 ^ (0 : ℕ) ≤ ((0 : ℤ) : ℚ)) := by
  constructor
  · rw [computeBackoffDelay, round_eq]
    have h : (2 / 5 : ℚ) * 2 ^ (0 : ℕ) * (1 / 2 + 3 / 8) + 1 / 2 = 17 / 20 := by
      norm_num
    rw [h]
    rw [Int.floor_eq_zero_iff]
    constructor
    · norm_num
    · norm_num
  · norm_num

/-- Claim C5 (amended to integer base delays): the computed backoff delay
equals `round(b * 2^n * j)` for a jitter factor `j = 0.5 + rand ∈ [0.5, 1.5)`,
and for every nonnegative integer base delay it falls within
`[0.5 * b * 2^n, 1.5 * b * 2^n]`. -/
theorem backoff_delay_range (b n : ℕ) (rand : ℚ)
    (h0 : 0 ≤ rand) (h1 : rand < 1) :
    (∃ j : ℚ, 1 / 2 ≤ j ∧ j < 3 / 2 ∧
      computeBackoffDelay (b : ℚ) n rand = round ((b : ℚ) * 2 ^ n * j)) ∧
    (1 / 2 : ℚ) * b * 2 ^ n ≤ (computeBackoffDelay (b : ℚ) n rand : ℚ) ∧
    (computeBackoffDelay (b : ℚ) n rand : ℚ) ≤ (3 / 2 : ℚ) * b * 2 ^ n := by
  have hC0 : (0 : ℚ) ≤ (b : ℚ) * 2 ^ n := by positivity
  have hcast : (((b : ℤ) * 2 ^ n : ℤ) : ℚ) = (b : ℚ) * 2 ^ n := by push_cast; ring
  have hk : computeBackoffDelay (b : ℚ) n rand =
      ⌊(b : ℚ) * 2 ^ n * (1 / 2 + rand) + 1 / 2⌋ := by
    rw [computeBackoffDelay, round_eq]
  refine ⟨⟨1 / 2 + rand, by linarith, by linarith, rfl⟩, ?_, ?_⟩
  · have hxlo : (1 / 2 : ℚ) * ((b : ℚ) * 2 ^ n) ≤ (b : ℚ) * 2 ^ n * (1 / 2 + rand) := by
      rw [mul_comm ((1 : ℚ) / 2)]
      apply mul_le_mul_of_nonneg_left ?_ hC0
      linarith
    have hfl : (b : ℚ) * 2 ^ n * (1 / 2 + rand) + 1 / 2 - 1 <
        ((⌊(b : ℚ) * 2 ^ n * (1 / 2 + rand) + 1 / 2⌋ : ℤ) : ℚ) :=
      Int.sub_one_lt_floor _
    have h2 : (((b : ℤ) * 2 ^ n : ℤ) : ℚ) - 1 <
        2 * ((⌊(b : ℚ) * 2 ^ n * (1 / 2 + rand) + 1 / 2⌋ : ℤ) : ℚ) := by
      rw [hcast]
      linarith
    have h3 : (b : ℤ) * 2 ^ n - 1 < 2 * ⌊(b : ℚ) * 2 ^ n * (1 / 2 + rand) + 1 / 2⌋ := by
      exact_mod_cast h2
    have h4 : (b : ℤ) * 2 ^ n ≤ 2 * ⌊(b : ℚ) * 2 ^ n * (1 / 2 + rand) + 1 / 2⌋ := by
      omega
    have h5 : (((b : ℤ) * 2 ^ n : ℤ) : ℚ) ≤
        2 * ((⌊(b : ℚ) * 2 ^ n * (1 / 2 + rand) + 1 / 2⌋ : ℤ) : ℚ) := by
      exact_mod_cast h4
    rw [hk]
    rw [hcast] at h5
    linarith
  · rcases Nat.eq_zero_or_pos b with hb | hb
    · subst hb
      have hx0 : ((0 : ℕ) : ℚ) * 2 ^ n * (1 / 2 + rand) = 0 := by
        push_cast
        ring
      rw [hk, hx0]
      norm_num
    · have hCpos : (0 : ℚ) < (b : ℚ) * 2 ^ n := by positivity
      have hxhi : (b : ℚ) * 2 ^ n * (1 / 2 + rand) <
          (3 / 2 : ℚ) * ((b : ℚ) * 2 ^ n) := by
        rw [mul_comm ((3 : ℚ) / 2)]
        apply mul_lt_mul_of_pos_left ?_ hCpos
        linarith
      have hfl : ((⌊(b : ℚ) * 2 ^ n * (1 / 2 + rand) + 1 / 2⌋ : ℤ) : ℚ) ≤
          (b : ℚ) * 2 ^ n * (1 / 2 + rand) + 1 / 2 :=
        Int.floor_le _
      have h2 : 2 * ((⌊(b : ℚ) * 2 ^ n * (1 / 2 + rand) + 1 / 2⌋ : ℤ) : ℚ) <
          3 * (((b : ℤ) * 2 ^ n : ℤ) : ℚ) + 1 := by
        rw [hcast]
        linarith

      have h3 : 2 * ⌊(b : ℚ) * 2 ^ n * (1 / 2 + rand) + 1 / 2⌋ <
          3 * ((b : ℤ) * 2 ^ n) + 1 := by
        exact_mod_cast h2
      have h4 : 2 * ⌊(b : ℚ) * 2 ^ n * (1 / 2 + rand) + 1 / 2⌋ ≤
          3 * ((b : ℤ) * 2 ^ n) := by
        omega
      have h5 : 2 * ((⌊(b : ℚ) * 2 ^ n * (1 / 2 + rand) + 1 / 2⌋ : ℤ) : ℚ) ≤
          3 * (((b : ℤ) * 2 ^ n : ℤ) : ℚ) := by
        exact_mod_cast h4
      rw [hk]
      rw [hcast] at h5
      linarith

/-- Witness for C5 (amended): the default 750 ms base delay at attempt 0
with `Math.random() = 0` stays within the claimed range. -/
theorem backoff_delay_range_witness :
    (1 / 2 : ℚ) * ((750 : ℕ) : ℚ) * 2 ^ (0 : ℕ) ≤
      (computeBackoffDelay ((750 : ℕ) : ℚ) 0 0 : ℚ) ∧
    (computeBackoffDelay ((750 : ℕ) : ℚ) 0 0 : ℚ) ≤
      (3 / 2 : ℚ) * ((750 : ℕ) : ℚ) * 2 ^ (0 : ℕ) :=
  ⟨(backoff_delay_range 750 0 0 (by norm_num) (by norm_num)).2.1,
   (backoff_delay_range 750 0 0 (by norm_num) (by norm_num)).2.2⟩

/-! ## Claim theorems: client facade and alias resolver -/

/-- Claim C7: `getFood` is the first element of the single-id `getFoods`
batch; an empty batch raises the non-retryable 404 not-found error; batch
errors propagate. -/
theorem getFood_via_batch (getFoods : BulkFoodsRequest → Except JsError (List FoodItem))
    (fdcId : ℤ) (options : Option FoodQueryOptions) :
    (singleFoodRequest fdcId options).fdcIds = [fdcId] ∧
    (∀ e, getFoods (singleFoodRequest fdcId options) = .error e →
      getFood getFoods fdcId options = .error e) ∧
    (getFoods (singleFoodRequest fdcId options) = .ok [] →
      getFood getFoods fdcId options = .error (.fdc (fdcNotFoundError fdcId)) ∧
      (fdcNotFoundError fdcId).status = some 404 ∧
      (fdcNotFoundError fdcId).retryable = false) ∧
    (∀ food rest, getFoods (singleFoodRequest fdcId options) = .ok (food :: rest) →
      getFood getFoods fdcId options = .ok food) := by
  refine ⟨rfl, ?_, ?_, ?_⟩
  · intro e he
    unfold getFood
    rw [he]
  · intro he
    refine ⟨?_, rfl, rfl⟩
    unfold getFood
    rw [he]
  · intro food rest he
    unfold getFood
    rw [he]

/-- Witness for C7: an empty batch yields the 404 not-found error. -/
theorem getFood_via_batch_witness :
    getFood (fun _ => .ok []) 4053 none = .error (.fdc (fdcNotFoundError 4053)) :=
  ((getFood_via_batch (fun _ => .ok []) 4053 none).2.2.1 rfl).1

/-- Claim C8: a 404 `FoodDataCentralError` consults the alias table — on a
hit the same options are replayed against the replacement identifier and
the result carries `{requestedId, alias}` provenance, on a miss the
original error propagates unchanged — while non-404 failures (and non-404
statuses) never consult the table. -/
theorem fetchFoodWithAlias_spec
    (g : ℤ → Option FoodQueryOptions → Except JsError FoodItem)
    (fdcId : ℤ) (options : Option FoodQueryOptions) :
    (∀ e, g fdcId options = .error (.fdc e) → e.status = some 404 →
      (∀ al, FDC_ID_ALIASES fdcId = some al →
        fetchFoodWithAlias g fdcId options =
          (match g al.replacementId options with
           | .ok food =>
             .ok { food := food, resolvedFdcId := al.replacementId,
                   aliasInfo := some { requestedId := fdcId, aliasEntry := al } }
           | .error e2 => .error e2)) ∧
      (FDC_ID_ALIASES fdcId = none →
        fetchFoodWithAlias g fdcId options = .error (.fdc e))) ∧
    (∀ e, g fdcId options = .error (.fdc e) → e.status ≠ some 404 →
      ∀ table, fetchFoodWithAliasTable g table fdcId options = .error (.fdc e)) ∧
    (g fdcId options = .error .other →
      ∀ table, fetchFoodWithAliasTable g table fdcId options = .error .other) ∧
    (∀ food, g fdcId options = .ok food →
      fetchFoodWithAlias g fdcId options = .ok { food := food, resolvedFdcId := fdcId }) := by
  refine ⟨?_, ?_, ?_, ?_⟩
  · intro e hg h404
    constructor
    · intro al hal
      simp [fetchFoodWithAlias, fetchFoodWithAliasTable, hg, h404, hal]
    · intro hal
      simp [fetchFoodWithAlias, fetchFoodWithAliasTable, hg, h404, hal]
  · intro e hg h404 table
    simp [fetchFoodWithAliasTable, hg, h404]
  · intro hg table
    simp [fetchFoodWithAliasTable, hg]
  · intro food hg
    simp [fetchFoodWithAlias, fetchFoodWithAliasTable, hg]

/-- Witness for C8: a 404 on retired id 4053 is replayed against 748608
with provenance. -/
theorem fetchFoodWithAlias_spec_witness :
    fetchFoodWithAlias
      (fun i _ =>
        if i = 4053 then .error (.fdc (fdcNotFoundError 4053))
        else .ok [("description", .str "Olive oil")])
      4053 none =
    .ok { food := [("description", .str "Olive oil")]
          resolvedFdcId := 748608
          aliasInfo := some
            { requestedId := 4053
              aliasEntry :=
                { replacementId := 748608
                  dataset := some "Foundation"
                  rationale := some
                    "USDA retired the SR Legacy olive oil record; the Foundation entry retains the same nutrient profile." } } } :=
  ((fetchFoodWithAlias_spec
      (fun i _ =>
        if i = 4053 then .error (.fdc (fdcNotFoundError 4053))
        else .ok [("description", .str "Olive oil")])
      4053 none).1 (fdcNotFoundError 4053) rfl rfl).1 _ rfl

/-! ## Claim theorems: cursor codec -/

theorem decode_encode_int (tool : CursorTool) (p s : ℤ) (hp : 1 ≤ p) (hs : 1 ≤ s) :
    decodeCursor (encodeCursor tool (p : ℚ) (s : ℚ)) tool =
      .ok { page := p, size := min s MAX_PAGE_SIZE } := by
  have hmaxp : max 1 (jsTrunc (p : ℚ)) = p := by
    rw [jsTrunc_intCast]
    exact max_eq_right hp
  have hminbound : 1 ≤ min s MAX_PAGE_SIZE := le_min hs (by decide)
  have hmins : min (max (jsTrunc (s : ℚ)) 1) MAX_PAGE_SIZE = min s MAX_PAGE_SIZE := by
    rw [jsTrunc_intCast, max_eq_left hs]
  have hmins2 : min (max (jsTrunc ((min s MAX_PAGE_SIZE : ℤ) : ℚ)) 1) MAX_PAGE_SIZE =
      min s MAX_PAGE_SIZE := by
    rw [jsTrunc_intCast, max_eq_left hminbound]
    exact min_eq_left (min_le_right _ _)
  unfold encodeCursor decodeCursor
  rw [hmaxp, hmins]
  rw [if_neg (by simp)]
  dsimp only []
  rw [if_neg (not_lt.mpr (by exact_mod_cast hp))]
  rw [if_pos (by exact_mod_cast hminbound)]
  rw [hmaxp, hmins2]

/-- Counterexample for C2 as stated: encoding size 201 (above
`MAX_PAGE_SIZE`) silently clamps, so the cursor decodes to size 200, not
201. -/
theorem cursor_roundtrip_counterexample :
    decodeCursor (encodeCursor .searchFoods ((1 : ℤ) : ℚ) ((201 : ℤ) : ℚ)) .searchFoods =
      .ok { page := 1, size := 200 } ∧
    ({ page := 1, size := 200 } : CursorDetails) ≠ { page := 1, size := 201 } := by
  constructor
  · have h := decode_encode_int .searchFoods 1 201 (by decide) (by decide)
    rw [show min (201 : ℤ) MAX_PAGE_SIZE = 200 from by decide] at h
    exact h
  · decide

/-- Claim C2 (amended to sizes within `MAX_PAGE_SIZE`): for both cursor
tools and all integers `p ≥ 1` and `1 ≤ s ≤ 200`, decoding an encoded
cursor returns exactly `{page := p, size := s}`. -/
theorem cursor_roundtrip (tool : CursorTool) (p s : ℤ)
    (hp : 1 ≤ p) (hs1 : 1 ≤ s) (hs2 : s ≤ MAX_PAGE_SIZE) :
    decodeCursor (encodeCursor tool (p : ℚ) (s : ℚ)) tool =
      .ok { page := p, size := s } := by
  have h := decode_encode_int tool p s hp hs1
  rw [min_eq_left hs2] at h
  exact h

/-- Witness for C2 (amended): page 2, size 150 round-trips through the
search cursor. -/
theorem cursor_roundtrip_witness :
    decodeCursor (encodeCursor .searchFoods ((2 : ℤ) : ℚ) ((150 : ℤ) : ℚ)) .searchFoods =
      .ok { page := 2, size := 150 } :=
  cursor_roundtrip .searchFoods 2 150 (by decide) (by decide) (by decide)

/-- Claim C10: every successful decode returns integers with `page ≥ 1` and
`1 ≤ size ≤ MAX_PAGE_SIZE = 200`; fractional payload values are truncated
toward zero; a size above 200 is silently clamped to 200, so a cursor
encoding a larger size does not round-trip. -/
theorem decodeCursor_invariants :
    (∀ (payload : CursorPayload) (tool : CursorTool) (details : CursorDetails),
      decodeCursor payload tool = .ok details →
      1 ≤ details.page ∧ 1 ≤ details.size ∧ details.size ≤ MAX_PAGE_SIZE) ∧
    decodeCursor
      { tool := some (.str "list-foods"), page := some (.num (5 / 2)),
        size := some (.num (601 / 2)) } .listFoods = .ok { page := 2, size := 200 } ∧
    decodeCursor (encodeCursor .listFoods ((1 : ℤ) : ℚ) ((300 : ℤ) : ℚ)) .listFoods =
      .ok { page := 1, size := 200 } := by
  refine ⟨?_, ?_, ?_⟩
  · intro payload tool details h
    unfold decodeCursor at h
    split at h
    · exact absurd h (by simp)
    · split at h
      · split at h
        · exact absurd h (by simp)
        · injection h with h2
          subst h2
          refine ⟨le_max_left _ _, le_min (le_max_right _ _) (by decide), min_le_right _ _⟩
      · exact absurd h (by simp)
  · have h1 : jsTrunc ((5 : ℚ) / 2) = 2 := by
      unfold jsTrunc
      rw [if_neg (by norm_num)]
      norm_num
    have h2 : jsTrunc ((601 : ℚ) / 2) = 300 := by
      unfold jsTrunc
      rw [if_neg (by norm_num)]
      norm_num
    unfold decodeCursor
    rw [if_neg (by simp [CursorTool.jsName])]
    dsimp only []
    rw [if_neg (by norm_num)]
    rw [if_pos (by norm_num)]
    rw [h1, h2]
    rw [show max (1 : ℤ) 2 = 2 from by decide]
    rw [show min (max (300 : ℤ) 1) MAX_PAGE_SIZE = 200 from by decide]
  · have h := decode_encode_int .listFoods 1 300 (by decide) (by decide)
    rw [show min (300 : ℤ) MAX_PAGE_SIZE = 200 from by decide] at h
    exact h

/-- Witness for C10: a decoded search cursor with page 3 and no size falls
back to size 25, within the invariant bounds. -/
theorem decodeCursor_invariants_witness :
    1 ≤ ({ page := 3, size := 25 } : CursorDetails).page ∧
    1 ≤ ({ page := 3, size := 25 } : CursorDetails).size ∧
    ({ page := 3, size := 25 } : CursorDetails).size ≤ MAX_PAGE_SIZE :=
  decodeCursor_invariants.1
    { tool := some (.str "search-foods"), page := some (.num ((3 : ℤ) : ℚ)) }
    .searchFoods { page := 3, size := 25 }
    (by
      unfold decodeCursor
      rw [if_neg (by simp [CursorTool.jsName])]
      dsimp only []
      rw [if_neg (not_lt.mpr (by exact_mod_cast (by decide : (1 : ℤ) ≤ 3)))]
      rw [show DEFAULT_CURSOR_SIZES CursorTool.searchFoods = (25 : ℤ) from rfl]
      rw [jsTrunc_intCast, jsTrunc_intCast]
      rw [show max (1 : ℤ) 3 = 3 from by decide]
      rw [show min (max (25 : ℤ) 1) MAX_PAGE_SIZE = 25 from by decide])

/-! ## Claim theorems: nutrient-resolution attempt plan -/

/-- Claim C6: for every non-empty set of requested nutrient keys the
attempt list is exactly: the abridged attempt filtered by the sorted union
of the keys' numeric ids (whenever any ids exist), then the unfiltered full
attempt, then the unfiltered abridged attempt; signature-based
deduplication removes nothing from this sequence. -/
theorem nutrient_attempt_plan (keys : List NutrientKey) (hne : keys ≠ []) :
    buildAttempts keys =
      (if nutrientIdUnion keys = [] then []
       else [{ format := some .abridged, nutrients := some (sortIds (nutrientIdUnion keys)) }]) ++
      [{ format := some .full, nutrients := none },
       { format := some .abridged, nutrients := none }] := by
  clear hne
  by_cases hids : nutrientIdUnion keys = []
  · rw [if_pos hids]
    simp only [buildAttempts]
    rw [hids]
    rfl
  · rw [if_neg hids]
    have hsne : sortIds (nutrientIdUnion keys) ≠ [] := sortIds_ne_nil _ hids
    have hsne2 : sortIds (sortIds (nutrientIdUnion keys)) ≠ [] := sortIds_ne_nil _ hsne
    obtain ⟨z, rest, hz⟩ := List.exists_cons_of_ne_nil hsne2
    have hjoin : jsJoin "," ((sortIds (sortIds (nutrientIdUnion keys))).map toString) ≠ "" := by
      rw [hz, List.map_cons]
      exact jsJoin_cons_ne_empty "," _ _ (int_toString_ne_empty z)
    have hjlen : 0 < (jsJoin "," ((sortIds (sortIds (nutrientIdUnion keys))).map toString)).length :=
      string_length_pos _ hjoin
    have hempty : (nutrientIdUnion keys).isEmpty = false := by
      cases hu : nutrientIdUnion keys with
      | nil => exact absurd hu hids
      | cons a as => rfl
    have hempty2 : (sortIds (nutrientIdUnion keys)).isEmpty = false := by
      cases hu : sortIds (nutrientIdUnion keys) with
      | nil => exact absurd hu hsne
      | cons a as => rfl
    have hne1 : ("full:" : String) ≠
        "abridged:" ++ jsJoin "," (List.map toString (sortIds (sortIds (nutrientIdUnion keys)))) := by
      intro h
      have hl := congrArg String.length h
      rw [String.length_append] at hl
      rw [show ("full:" : String).length = 5 from rfl] at hl
      rw [show ("abridged:" : String).length = 9 from rfl] at hl
      omega
    have hne2 : ("abridged:" : String) ≠
        "abridged:" ++ jsJoin "," (List.map toString (sortIds (sortIds (nutrientIdUnion keys)))) := by
      intro h
      have hl := congrArg String.length h
      rw [String.length_append] at hl
      rw [show ("abridged:" : String).length = 9 from rfl] at hl
      omega
    have hne3 : ("abridged:" : String) ≠ "full:" := by decide
    simp only [buildAttempts, hempty, Bool.false_eq_true, if_false]
    simp only [addAttempt, normalizeAttempt, buildNutrientRequestSignature, hempty2,
      Option.getD_some, Option.getD_none, formatName,
      show sortIds ([] : List ℤ) = [] from rfl, List.map_nil,
      show jsJoin "," ([] : List String) = "" from rfl]
    simp [List.mem_singleton, List.mem_cons, hne1, hne2, hne3]

/-- Witness for C6: the calories request plans the filtered abridged
attempt on ids [208, 1008], then full, then abridged. -/
theorem nutrient_attempt_plan_witness :
    buildAttempts [NutrientKey.calories] =
      [{ format := some .abridged, nutrients := some [208, 1008] },
       { format := some .full, nutrients := none },
       { format := some .abridged, nutrients := none }] := by
  have h := nutrient_attempt_plan [NutrientKey.calories] (by decide)
  rw [h]
  rfl

/-! ## Claim theorems: Foundation macro policy -/

theorem strContains_trans (a b c : String) (h1 : strContains a b) (h2 : strContains b c) :
    strContains a c := by
  obtain ⟨p, q, hpq⟩ := h1
  obtain ⟨r, t, hrt⟩ := h2
  refine ⟨r ++ p, q ++ t, ?_⟩
  rw [hrt, hpq]
  simp [String.append_assoc]

theorem strContains_mem_jsJoin (sep l : String) (L : List String) (hl : l ∈ L) :
    strContains l (jsJoin sep L) := by
  induction L with
  | nil => exact absurd hl (List.not_mem_nil l)
  | cons x xs ih =>
    rcases List.mem_cons.mp hl with h | h
    · subst h
      cases xs with
      | nil =>
        refine ⟨"", "", ?_⟩
        rw [String.empty_append, String.append_empty]
        exact rfl
      | cons y ys =>
        refine ⟨"", sep ++ jsJoin sep (y :: ys), ?_⟩
        rw [jsJoin]
        rw [String.empty_append, String.append_assoc]
    · have hxs : xs ≠ [] := by
        intro hnil
        subst hnil
        exact absurd h (List.not_mem_nil l)
      obtain ⟨y, ys, hys⟩ := List.exists_cons_of_ne_nil hxs
      subst hys
      obtain ⟨p, q, hpq⟩ := ih h
      refine ⟨x ++ sep ++ p, q, ?_⟩
      rw [jsJoin, hpq]
      simp [String.append_assoc]

theorem missing_labels_eq (keysL : List NutrientKey) (m : NutrientKey → Option NutrientMatch) :
    ((keysL.map (fun k => buildNutrientValue k (m k))).filter
        (fun n => n.valuePer100g.isNone)).map (fun n => n.label) =
      (keysL.filter (fun k => (m k).isNone)).map
        (fun k => (NUTRIENT_DEFINITIONS k).label) := by
  induction keysL with
  | nil => rfl
  | cons k ks ih =>
    have hb : (buildNutrientValue k (m k)).valuePer100g.isNone = (m k).isNone := by
      cases m k <;> rfl
    simp only [List.map_cons, List.filter_cons, hb]
    cases hmk : (m k).isNone with
    | true =>
      have hlab : (buildNutrientValue k (m k)).label = (NUTRIENT_DEFINITIONS k).label := rfl
      simp only [hmk, eq_self_iff_true, if_true, List.map_cons, hlab]
      rw [ih]
    | false =>
      simp only [hmk, Bool.false_eq_true, if_false]
      exact ih

theorem postFetch_foundation_error (describe : FoodItem → String)
    (valueKeys policyKeys : List NutrientKey) (fdcId : ℤ) (food : FoodItem)
    (m : NutrientKey → Option NutrientMatch) (aliasInfo : Option AliasResolution)
    (hdt : foodDataTypeNormalized food = some "foundation")
    (hmiss : policyKeys.filter (fun k => (m k).isNone) ≠ []) :
    ∃ msg, nutrientToolPostFetch describe valueKeys policyKeys fdcId food m aliasInfo =
        .error msg ∧
      ∀ k ∈ policyKeys, (m k).isNone →
        strContains (NUTRIENT_DEFINITIONS k).label msg := by
  have hM := missing_labels_eq policyKeys m
  have hMne : ((policyKeys.map (fun k => buildNutrientValue k (m k))).filter
      (fun n => n.valuePer100g.isNone)).map (fun n => n.label) ≠ [] := by
    rw [hM]
    intro hnil
    exact hmiss (List.map_eq_nil_iff.mp hnil)
  have hMempty : (((policyKeys.map (fun k => buildNutrientValue k (m k))).filter
      (fun n => n.valuePer100g.isNone)).map (fun n => n.label)).isEmpty = false := by
    cases hu : ((policyKeys.map (fun k => buildNutrientValue k (m k))).filter
        (fun n => n.valuePer100g.isNone)).map (fun n => n.label) with
    | nil => exact absurd hu hMne
    | cons a as => rfl
  simp only [nutrientToolPostFetch]
  rw [if_pos ⟨hdt, by rw [hMempty]; exact Bool.false_ne_true⟩]
  refine ⟨_, rfl, ?_⟩
  intro k hk hnone
  have hmemf : k ∈ policyKeys.filter (fun k => (m k).isNone) :=
    List.mem_filter.mpr ⟨hk, hnone⟩
  have hmemM : (NUTRIENT_DEFINITIONS k).label ∈
      ((policyKeys.map (fun k => buildNutrientValue k (m k))).filter
        (fun n => n.valuePer100g.isNone)).map (fun n => n.label) := by
    rw [hM]
    exact List.mem_map.mpr ⟨k, hmemf, rfl⟩
  have h1 : strContains (NUTRIENT_DEFINITIONS k).label
      (jsJoin ", " (((policyKeys.map (fun k => buildNutrientValue k (m k))).filter
        (fun n => n.valuePer100g.isNone)).map (fun n => n.label))) :=
    strContains_mem_jsJoin _ _ _ hmemM
  refine strContains_trans _ _ _ h1 ?_
  refine ⟨"Foundation entry " ++ describe food ++ " omits ",
    ". Choose an FDC record that lists macros or derive the values manually." ++
      (match aliasInfo with
       | some info => " " ++ formatAliasNote describe info food
       | none => ""), ?_⟩
  simp [foundationPolicyMessage, String.append_assoc]

theorem postFetch_ok (describe : FoodItem → String)
    (valueKeys policyKeys : List NutrientKey) (fdcId : ℤ) (food : FoodItem)
    (m : NutrientKey → Option NutrientMatch) (aliasInfo : Option AliasResolution)
    (hall : policyKeys.filter (fun k => (m k).isNone) = []) :
    ∃ out, nutrientToolPostFetch describe valueKeys policyKeys fdcId food m aliasInfo =
        .ok out ∧
      ∀ k ∈ valueKeys, (m k).isNone →
        ∃ note ∈ out.summary.notes.getD [],
          strContains (NUTRIENT_DEFINITIONS k).label note := by
  have hM := missing_labels_eq policyKeys m
  have hMempty : (((policyKeys.map (fun k => buildNutrientValue k (m k))).filter
      (fun n => n.valuePer100g.isNone)).map (fun n => n.label)).isEmpty = true := by
    rw [hM, hall]
    rfl
  simp only [nutrientToolPostFetch]
  rw [if_neg (by
    intro hc
    rw [hMempty] at hc
    exact hc.2 rfl)]
  refine ⟨_, rfl, ?_⟩
  intro k hk hnone
  have hMall := missing_labels_eq valueKeys m
  have hmemf : k ∈ valueKeys.filter (fun k => (m k).isNone) :=
    List.mem_filter.mpr ⟨hk, hnone⟩
  have hmemM : (NUTRIENT_DEFINITIONS k).label ∈
      ((valueKeys.map (fun k => buildNutrientValue k (m k))).filter
        (fun n => n.valuePer100g.isNone)).map (fun n => n.label) := by
    rw [hMall]
    exact List.mem_map.mpr ⟨k, hmemf, rfl⟩
  have hAllne : ((valueKeys.map (fun k => buildNutrientValue k (m k))).filter
      (fun n => n.valuePer100g.isNone)).map (fun n => n.label) ≠ [] :=
    List.ne_nil_of_mem hmemM
  have hAllempty : (((valueKeys.map (fun k => buildNutrientValue k (m k))).filter
      (fun n => n.valuePer100g.isNone)).map (fun n => n.label)).isEmpty = false := by
    cases hu : ((valueKeys.map (fun k => buildNutrientValue k (m k))).filter
        (fun n => n.valuePer100g.isNone)).map (fun n => n.label) with
    | nil => exact absurd hu hAllne
    | cons a as => rfl
  simp only [hAllempty, Bool.false_eq_true, if_false]
  have happ : ∀ (L : List String) (x : String), (L ++ [x]).isEmpty = false := by
    intro L x
    cases L <;> rfl
  simp only [happ, Bool.false_eq_true, if_false, Option.getD_some]
  refine ⟨_, List.mem_append_right _ (List.mem_singleton.mpr rfl), ?_⟩
  refine strContains_trans _ _ _ (strContains_mem_jsJoin ", " _ _ hmemM) ?_
  refine ⟨"Missing values for: ", ".", ?_⟩
  simp [String.append_assoc]

/-- Claim C3: on a record whose `dataType` normalises to `foundation`, any
unmatched core macro makes both macro tools throw (never return a partial
result), with every missing macro's label named in the error message;
while, whenever all four macros matched, both tools succeed regardless of
unmatched micronutrients, whose labels are only reported in the reply's
notes. -/
theorem foundation_macro_policy (describe : FoodItem → String) (fdcId : ℤ)
    (food : FoodItem) (matchMap : NutrientKey → Option NutrientMatch)
    (aliasInfo : Option AliasResolution) :
    (foodDataTypeNormalized food = some "foundation" →
      (∃ k ∈ macroNutrientKeys, (matchMap k).isNone) →
      (exceptIsError (getMacrosPostFetch describe fdcId food matchMap aliasInfo) = true ∧
        exceptIsError (getMacroMicrosPostFetch describe fdcId food matchMap aliasInfo) = true) ∧
      (∀ k ∈ macroNutrientKeys, (matchMap k).isNone →
        strContains (NUTRIENT_DEFINITIONS k).label
          (exceptErrorText (getMacrosPostFetch describe fdcId food matchMap aliasInfo)) ∧
        strContains (NUTRIENT_DEFINITIONS k).label
          (exceptErrorText (getMacroMicrosPostFetch describe fdcId food matchMap aliasInfo)))) ∧
    ((∀ k ∈ macroNutrientKeys, (matchMap k).isNone = false) →
      (∃ out, getMacrosPostFetch describe fdcId food matchMap aliasInfo = .ok out) ∧
      (∃ out, getMacroMicrosPostFetch describe fdcId food matchMap aliasInfo = .ok out ∧
        ∀ k ∈ microNutrientKeys, (matchMap k).isNone →
          ∃ note ∈ out.summary.notes.getD [],
            strContains (NUTRIENT_DEFINITIONS k).label note)) := by
  constructor
  · intro hdt hmiss
    obtain ⟨k0, hk0, hvk0⟩ := hmiss
    have hfne : macroNutrientKeys.filter (fun k => (matchMap k).isNone) ≠ [] :=
      List.ne_nil_of_mem (List.mem_filter.mpr ⟨hk0, hvk0⟩)
    obtain ⟨msg1, heq1, hprop1⟩ := postFetch_foundation_error describe
      macroNutrientKeys macroNutrientKeys fdcId food matchMap aliasInfo hdt hfne
    obtain ⟨msg2, heq2, hprop2⟩ := postFetch_foundation_error describe
      macroMicronutrientKeys macroNutrientKeys fdcId food matchMap aliasInfo hdt hfne
    have he1 : getMacrosPostFetch describe fdcId food matchMap aliasInfo = .error msg1 := heq1
    have he2 : getMacroMicrosPostFetch describe fdcId food matchMap aliasInfo = .error msg2 := heq2
    rw [he1, he2]
    exact ⟨⟨rfl, rfl⟩, fun k hk hnone => ⟨hprop1 k hk hnone, hprop2 k hk hnone⟩⟩
  · intro hall
    have hfe : macroNutrientKeys.filter (fun k => (matchMap k).isNone) = [] := by
      rw [List.filter_eq_nil_iff]
      intro k hk
      rw [hall k hk]
      exact Bool.false_ne_true
    obtain ⟨out1, hout1, hn1⟩ := postFetch_ok describe macroNutrientKeys
      macroNutrientKeys fdcId food matchMap aliasInfo hfe
    obtain ⟨out2, hout2, hn2⟩ := postFetch_ok describe macroMicronutrientKeys
      macroNutrientKeys fdcId food matchMap aliasInfo hfe
    refine ⟨⟨out1, hout1⟩, out2, hout2, ?_⟩
    intro k hk hnone
    refine hn2 k ?_ hnone
    show k ∈ macroNutrientKeys ++ microNutrientKeys
    exact List.mem_append_right _ hk

/-- Witness for C3: a Foundation record missing protein makes `get_macros`
throw, and the message names Protein. -/
theorem foundation_macro_policy_witness :
    exceptIsError (getMacrosPostFetch (fun _ => "Test food") 5
      [("dataType", JsonValue.str "Foundation")]
      (fun k => if k = NutrientKey.protein then none else some { value := 1 }) none) = true ∧
    strContains (NUTRIENT_DEFINITIONS NutrientKey.protein).label
      (exceptErrorText (getMacrosPostFetch (fun _ => "Test food") 5
        [("dataType", JsonValue.str "Foundation")]
        (fun k => if k = NutrientKey.protein then none else some { value := 1 }) none)) := by
  have h := (foundation_macro_policy (fun _ => "Test food") 5
    [("dataType", JsonValue.str "Foundation")]
    (fun k => if k = NutrientKey.protein then none else some { value := 1 }) none).1
    (by decide) ⟨NutrientKey.protein, by decide, by decide⟩
  exact ⟨h.1.1, (h.2 NutrientKey.protein (by decide) (by decide)).1⟩

/-! ## Claim theorems: request limiter -/

theorem dispatchTimes_append (l1 l2 : List LimiterEvent) :
    dispatchTimes (l1 ++ l2) = dispatchTimes l1 ++ dispatchTimes l2 := by
  unfold dispatchTimes
  exact List.filterMap_append _ _ _

theorem parkSeq_append (l1 l2 : List LimiterEvent) :
    parkSeq (l1 ++ l2) = parkSeq l1 ++ parkSeq l2 := by
  unfold parkSeq
  exact List.filterMap_append _ _ _

theorem wakeSeq_append (l1 l2 : List LimiterEvent) :
    wakeSeq (l1 ++ l2) = wakeSeq l1 ++ wakeSeq l2 := by
  unfold wakeSeq
  exact List.filterMap_append _ _ _

theorem limiterInv_init (opts : LimiterOptions) (s : LimiterSystem)
    (h : LimiterInit s) : LimiterInv opts s := by
  obtain ⟨ha, hl, hc, hw, he, hp⟩ := h
  refine ⟨?_, ?_, ?_, ?_, ?_⟩
  · rw [ha]
    exact Nat.zero_le _
  · rw [hl]
    exact hc
  · rw [he]
    intro t ht
    exact absurd ht (List.not_mem_nil t)
  · rw [he]
    exact List.Pairwise.nil
  · rw [he, hw]
    rfl

theorem limiterInv_step (opts : LimiterOptions) (s s2 : LimiterSystem)
    (hstep : LimiterStep opts s s2) (hinv : LimiterInv opts s) :
    LimiterInv opts s2 := by
  obtain ⟨hact, hlast, hts, hpw, hq⟩ := hinv
  cases hstep with
  | start c t hph hct =>
    exact ⟨hact, le_trans hlast hct, hts, hpw, hq⟩
  | dispatch c t t2 hph hlt hct htt hmin =>
    refine ⟨Nat.succ_le_of_lt hlt, le_refl t2, ?_, ?_, ?_⟩
    · intro u hu
      rw [dispatchTimes_append] at hu
      rcases List.mem_append.mp hu with h | h
      · calc u ≤ s.lastDispatched := hts u h
          _ ≤ s.clock := hlast
          _ ≤ t := hct
          _ ≤ t2 := htt
      · rw [show dispatchTimes [LimiterEvent.dispatchedEv c t2] = [t2] from rfl] at h
        rw [List.mem_singleton.mp h]
    · rw [dispatchTimes_append]
      rw [show dispatchTimes [LimiterEvent.dispatchedEv c t2] = [t2] from rfl]
      rw [List.pairwise_append]
      refine ⟨hpw, List.pairwise_singleton _ _, ?_⟩
      intro a ha b hb
      rw [List.mem_singleton.mp hb]
      calc a + opts.minDelayMs ≤ s.lastDispatched + opts.minDelayMs := by
            have := hts a ha
            omega
        _ ≤ t := by omega
        _ ≤ t2 := htt
    · rw [parkSeq_append, wakeSeq_append]
      rw [show parkSeq [LimiterEvent.dispatchedEv c t2] = [] from rfl]
      rw [show wakeSeq [LimiterEvent.dispatchedEv c t2] = [] from rfl]
      rw [List.append_nil, List.append_nil]
      exact hq
  | startDelay c t hph hlt hct hmin =>
    exact ⟨hact, le_trans hlast hct, hts, hpw, hq⟩
  | timerFire c t target hph hct htgt =>
    exact ⟨hact, le_trans hlast hct, hts, hpw, hq⟩
  | park c t hph hge hct =>
    refine ⟨hact, le_trans hlast hct, ?_, ?_, ?_⟩
    · intro u hu
      rw [dispatchTimes_append] at hu
      rw [show dispatchTimes [LimiterEvent.parkedEv c] = [] from rfl] at hu
      rw [List.append_nil] at hu
      exact hts u hu
    · rw [dispatchTimes_append]
      rw [show dispatchTimes [LimiterEvent.parkedEv c] = [] from rfl]
      rw [List.append_nil]
      exact hpw
    · rw [parkSeq_append, wakeSeq_append]
      rw [show parkSeq [LimiterEvent.parkedEv c] = [c] from rfl]
      rw [show wakeSeq [LimiterEvent.parkedEv c] = [] from rfl]
      rw [List.append_nil, hq]
      rw [List.append_assoc]
  | releaseNone c t hph hct hw =>
    exact ⟨le_trans (Nat.sub_le _ _) hact, le_trans hlast hct, hts, hpw, hq⟩
  | releaseWake c t w rest hph hct hwr =>
    refine ⟨le_trans (Nat.sub_le _ _) hact, le_trans hlast hct, ?_, ?_, ?_⟩
    · intro u hu
      rw [dispatchTimes_append] at hu
      rw [show dispatchTimes [LimiterEvent.wokenEv w] = [] from rfl] at hu
      rw [List.append_nil] at hu
      exact hts u hu
    · rw [dispatchTimes_append]
      rw [show dispatchTimes [LimiterEvent.wokenEv w] = [] from rfl]
      rw [List.append_nil]
      exact hpw
    · rw [parkSeq_append, wakeSeq_append]
      rw [show parkSeq [LimiterEvent.wokenEv w] = [] from rfl]
      rw [show wakeSeq [LimiterEvent.wokenEv w] = [w] from rfl]
      rw [List.append_nil, hq, hwr]
      rw [List.append_assoc]
      rw [List.singleton_append]
theorem limiterInv_reachable (opts : LimiterOptions) (s : LimiterSystem)
    (h : LimiterReachable opts s) : LimiterInv opts s := by
  obtain ⟨s0, hinit, hsteps⟩ := h
  induction hsteps with
  | refl => exact limiterInv_init opts s0 hinit
  | tail hsteps hstep ih => exact limiterInv_step opts _ _ hstep ih

/-- Claim C1: in every reachable limiter state, the count of
admitted-but-not-yet-released operations is at most `maxConcurrent`, and
the dispatch timestamps recorded by `acquire` are pairwise at least
`minDelayMs` apart, globally across all callers. -/
theorem limiter_invariants (opts : LimiterOptions) (s : LimiterSystem)
    (h : LimiterReachable opts s) :
    s.active ≤ opts.maxConcurrent ∧
    (dispatchTimes s.events).Pairwise (fun a b => a + opts.minDelayMs ≤ b) := by
  have hinv := limiterInv_reachable opts s h
  exact ⟨hinv.1, hinv.2.2.2.1⟩

/-- Witness for C1: after one dispatch under the one-slot configuration,
the invariants hold. -/
theorem limiter_invariants_witness :
    cexS2.active ≤ cexOpts.maxConcurrent ∧
    (dispatchTimes cexS2.events).Pairwise (fun a b => a + cexOpts.minDelayMs ≤ b) :=
  limiter_invariants cexOpts cexS2
    ⟨cexS0, ⟨rfl, rfl, le_refl 0, rfl, rfl, fun _ => rfl⟩,
      Relation.ReflTransGen.head (LimiterStep.start cexS0 0 0 (by decide) (by decide))
        (Relation.ReflTransGen.head
          (LimiterStep.dispatch cexS1 0 0 0 (by decide) (by decide) (by decide) (by decide)
            (by decide))
          Relation.ReflTransGen.refl)⟩

theorem cex_trace : Relation.ReflTransGen (LimiterStep cexOpts) cexS0 cexS12 :=
  Relation.ReflTransGen.head (LimiterStep.start cexS0 0 0 (by decide) (by decide))
  (Relation.ReflTransGen.head (LimiterStep.dispatch cexS1 0 0 0 (by decide) (by decide) (by decide) (by decide) (by decide))
  (Relation.ReflTransGen.head (LimiterStep.start cexS2 1 0 (by decide) (by decide))
  (Relation.ReflTransGen.head (LimiterStep.park cexS3 1 0 (by decide) (by decide) (by decide))
  (Relation.ReflTransGen.head (LimiterStep.start cexS4 2 0 (by decide) (by decide))
  (Relation.ReflTransGen.head (LimiterStep.park cexS5 2 0 (by decide) (by decide) (by decide))
  (Relation.ReflTransGen.head (LimiterStep.releaseWake cexS6 0 0 1 [2] (by decide) (by decide) (by decide))
  (Relation.ReflTransGen.head (LimiterStep.start cexS7 3 0 (by decide) (by decide))
  (Relation.ReflTransGen.head (LimiterStep.dispatch cexS8 3 0 0 (by decide) (by decide) (by decide) (by decide) (by decide))
  (Relation.ReflTransGen.head (LimiterStep.park cexS9 1 0 (by decide) (by decide) (by decide))
  (Relation.ReflTransGen.head (LimiterStep.releaseWake cexS10 3 0 2 [1] (by decide) (by decide) (by decide))
  (Relation.ReflTransGen.head (LimiterStep.dispatch cexS11 2 0 0 (by decide) (by decide) (by decide) (by decide) (by decide))
  Relation.ReflTransGen.refl)))))))))))

/-- Counterexample for C9 as stated: a legal event-loop interleaving in
which caller 1 parks before caller 2, yet caller 2 dispatches while caller
1 never does — a release wakes caller 1, a fresh caller steals the slot
before its continuation runs, and caller 1 re-parks at the tail. -/
theorem limiter_fifo_counterexample :
    LimiterInit cexS0 ∧
    Relation.ReflTransGen (LimiterStep cexOpts) cexS0 cexS12 ∧
    firstParkIdx cexS12.events 1 = some 1 ∧
    firstParkIdx cexS12.events 2 = some 2 ∧
    firstDispatchIdx cexS12.events 2 = some 7 ∧
    firstDispatchIdx cexS12.events 1 = none ∧
    ¬ FifoDispatchLog cexS12.events := by
  refine ⟨⟨rfl, rfl, le_refl 0, rfl, rfl, fun _ => rfl⟩, cex_trace, by decide, by decide,
    by decide, by decide, ?_⟩
  intro h
  obtain ⟨ja, hja, _⟩ := h 1 2 1 2 7 (by decide) (by decide) (by decide) (by decide)
  rw [show firstDispatchIdx cexS12.events 1 = none from by decide] at hja
  exact Option.noConfusion hja

/-- Claim C9 (amended to wake-up order): `release` serves the wait queue
in arrival order — in every reachable state the sequence of wake events is
a prefix of the sequence of park events, the remainder being the current
queue (the k-th wake dequeues the k-th park).  Dispatch order among parked
callers is not guaranteed, because a woken caller re-enters the acquire
loop and re-contends with new arrivals. -/
theorem limiter_wake_fifo (opts : LimiterOptions) (s : LimiterSystem)
    (h : LimiterReachable opts s) :
    parkSeq s.events = wakeSeq s.events ++ s.waiters :=
  (limiterInv_reachable opts s h).2.2.2.2

/-- Witness for C9 (amended): in the final state of the overtaking trace,
parks [1, 2, 1] equal wakes [1, 2] plus the pending queue [1]. -/
theorem limiter_wake_fifo_witness :
    parkSeq cexS12.events = wakeSeq cexS12.events ++ cexS12.waiters :=
  limiter_wake_fifo cexOpts cexS12
    ⟨cexS0, ⟨rfl, rfl, le_refl 0, rfl, rfl, fun _ => rfl⟩, cex_trace⟩
end USDA
